import Mathlib

/-!
Verification of the periodic-check health monitor (src/PeriodicCheck.ts).

The monitor is a small state machine over statuses {healthy, suspect,
unhealthy, error} with hysteresis counters, a bounded history log, derived
metrics, status-keyed listeners, and an adaptive rescheduling timer.  The
definitions below are a shallow embedding of the TypeScript class
`PeriodicCheck`: each private/public method becomes a Lean function on an
explicit state record.  Timestamps are naturals (milliseconds); listener
callbacks are represented by opaque numeric identifiers kept in a
registration log, and errors by opaque numeric identifiers, so that calls
to listeners can be observed as data.
-/

namespace PeriodicCheckModel

/-- `CheckStatus` from the source: "healthy" | "suspect" | "unhealthy" | "error". -/
inductive CheckStatus where
  | healthy
  | suspect
  | unhealthy
  | error
deriving DecidableEq, Repr

/-- `IntervalConfig` from the source: the three interval durations are
required; the two hysteresis bounds are optional. -/
structure IntervalConfig where
  healthy : Nat
  suspect : Nat
  unhealthy : Nat
  maxSuspectCount : Option Nat
  minHealthyCount : Option Nat
deriving DecidableEq, Repr

/-- `Required<IntervalConfig>`: the configuration after defaults are merged. -/
structure ResolvedIntervals where
  healthy : Nat
  suspect : Nat
  unhealthy : Nat
  maxSuspectCount : Nat
  minHealthyCount : Nat
deriving DecidableEq, Repr

/-- The constructor body
`this.intervals = { ...DEFAULT_OPTIONAL_INTERVAL_CONFIG, ...intervals }`
with `DEFAULT_OPTIONAL_INTERVAL_CONFIG = { maxSuspectCount: 3, minHealthyCount: 2 }`. -/
def resolveConfig (c : IntervalConfig) : ResolvedIntervals :=
  { healthy := c.healthy
    suspect := c.suspect
    unhealthy := c.unhealthy
    maxSuspectCount := c.maxSuspectCount.getD 3
    minHealthyCount := c.minHealthyCount.getD 2 }

/-- One element of `this.history`: `{ status, timestamp }`. -/
structure HistoryEntry where
  status : CheckStatus
  timestamp : Nat
deriving DecidableEq, Repr

/-- The mutable fields of the `PeriodicCheck` class.  `checkFn` records
whether a check function is installed; `timer` whether a timeout is
pending; `inFlight` whether a probe invocation has started and not yet
settled (between the `await this.checkFn()` suspension points).
`listeners` is the registration log of `on` calls: pairs of event key and
an opaque listener identifier, in registration order. -/
structure PeriodicCheck where
  intervals : ResolvedIntervals
  checkFn : Bool
  currentStatus : CheckStatus
  timer : Bool
  inFlight : Bool
  suspectCount : Nat
  healthyCount : Nat
  listeners : List (CheckStatus × Nat)
  history : List HistoryEntry
deriving DecidableEq, Repr

/-- `new PeriodicCheck(intervals)`: defaults merged, status starts healthy,
counters zero, no probe, no timer, empty history and listener map. -/
def init (c : IntervalConfig) : PeriodicCheck :=
  { intervals := resolveConfig c
    checkFn := false
    currentStatus := .healthy
    timer := false
    inFlight := false
    suspectCount := 0
    healthyCount := 0
    listeners := []
    history := [] }

/-- `this.listeners.get(status) || []`: the ordered callbacks registered
under one event key (per-key order equals registration order, as with the
`Map` of growing arrays in the source). -/
def listenersFor (s : PeriodicCheck) (st : CheckStatus) : List Nat :=
  (s.listeners.filter (fun p => p.1 = st)).map Prod.snd

/-- `on(status, listener)` (named `onEvent` here, `on` being reserved in
Lean): append the callback to the list for that key. -/
def onEvent (s : PeriodicCheck) (st : CheckStatus) (id : Nat) : PeriodicCheck :=
  { s with listeners := s.listeners ++ [(st, id)] }

/-- `getRecentHistory(minutes = 60)`: entries with
`timestamp >= Date.now() - minutes * 60 * 1000`, in original order.
The cutoff is computed in `Int` because it can be negative in JavaScript. -/
def getRecentHistory (s : PeriodicCheck) (now : Nat) (minutes : Nat := 60) :
    List HistoryEntry :=
  s.history.filter (fun e => (e.timestamp : Int) ≥ (now : Int) - minutes * 60 * 1000)

/-- The `statusCounts` object built by the `reduce` in `getMetrics`: a
JavaScript object with a key per status actually seen (`none` = key absent). -/
structure StatusCounts where
  healthy : Option Nat
  suspect : Option Nat
  unhealthy : Option Nat
  error : Option Nat
deriving DecidableEq, Repr

/-- The empty object `{}` the reduce starts from. -/
def StatusCounts.empty : StatusCounts :=
  { healthy := none, suspect := none, unhealthy := none, error := none }

/-- Object indexing `counts[st]` (`none` when the key is absent). -/
def StatusCounts.get (c : StatusCounts) (st : CheckStatus) : Option Nat :=
  match st with
  | .healthy => c.healthy
  | .suspect => c.suspect
  | .unhealthy => c.unhealthy
  | .error => c.error

/-- One reduce step: `acc[entry.status] = (acc[entry.status] || 0) + 1`. -/
def StatusCounts.bump (c : StatusCounts) (st : CheckStatus) : StatusCounts :=
  match st with
  | .healthy => { c with healthy := some (c.healthy.getD 0 + 1) }
  | .suspect => { c with suspect := some (c.suspect.getD 0 + 1) }
  | .unhealthy => { c with unhealthy := some (c.unhealthy.getD 0 + 1) }
  | .error => { c with error := some (c.error.getD 0 + 1) }

/-- The whole reduce over the recent history. -/
def countStatuses (l : List HistoryEntry) : StatusCounts :=
  l.foldl (fun acc e => acc.bump e.status) StatusCounts.empty

/-- The metrics object: `availability`, `statusCounts`, `currentStreak`.
`availability` is the exact rational of the JavaScript division. -/
structure Metrics where
  availability : ℚ
  statusCounts : StatusCounts
  currentStreak : Nat
deriving DecidableEq, Repr

/-- The backwards scan of `getCurrentStreak`: starting below the last
entry, count while the status keeps matching, stop at the first mismatch. -/
def countStreak (st : CheckStatus) : List HistoryEntry → Nat
  | [] => 0
  | e :: rest => if e.status = st then 1 + countStreak st rest else 0

/-- `getCurrentStreak()`: 0 on empty history, otherwise 1 for the last
entry plus the backwards scan over the remaining entries. -/
def getCurrentStreak (s : PeriodicCheck) : Nat :=
  match s.history.reverse with
  | [] => 0
  | last :: rest => 1 + countStreak last.status rest

/-- `getMetrics()`: over the default 60-minute window; on an empty window
it returns the literal
`{ availability: 1, currentStreak: 1, statusCounts: {healthy:1, suspect:0, unhealthy:0, error:0} }`. -/
def getMetrics (s : PeriodicCheck) (now : Nat) : Metrics :=
  let recentHistory := getRecentHistory s now
  let total := recentHistory.length
  if total = 0 then
    { availability := 1
      currentStreak := 1
      statusCounts :=
        { healthy := some 1, suspect := some 0, unhealthy := some 0, error := some 0 } }
  else
    let counts := countStatuses recentHistory
    { availability := ((counts.healthy.getD 0 : ℚ)) / (total : ℚ)
      statusCounts := counts
      currentStreak := getCurrentStreak s }

/-- `CheckEventData`: the snapshot passed to status listeners. -/
structure CheckEventData where
  status : CheckStatus
  history : List HistoryEntry
  metrics : Metrics
deriving DecidableEq, Repr

/-- `createEventData()`. -/
def createEventData (s : PeriodicCheck) (now : Nat) : CheckEventData :=
  { status := s.currentStatus
    history := getRecentHistory s now
    metrics := getMetrics s now }

/-- `notifyListeners()`: the calls it makes, as (listener id, snapshot)
pairs in order. -/
def notifyListeners (s : PeriodicCheck) (now : Nat) : List (Nat × CheckEventData) :=
  (listenersFor s s.currentStatus).map (fun id => (id, createEventData s now))

/-- `transitionTo(status)`. -/
def transitionTo (s : PeriodicCheck) (st : CheckStatus) : PeriodicCheck :=
  { s with currentStatus := st }

/-- The branchy part of `updateStatus(isHealthy)`: counters and
transitions, before the history append and the notification check. -/
def updateStatusCore (s : PeriodicCheck) (isHealthy : Bool) : PeriodicCheck :=
  if isHealthy then
    let s1 := { s with healthyCount := s.healthyCount + 1, suspectCount := 0 }
    if s1.healthyCount ≥ s1.intervals.minHealthyCount then
      transitionTo s1 .healthy
    else
      s1
  else
    let s1 := { s with healthyCount := 0 }
    if s1.currentStatus = .healthy then
      let s2 := { s1 with suspectCount := s1.suspectCount + 1 }
      if s2.suspectCount ≥ s2.intervals.maxSuspectCount then
        transitionTo s2 .unhealthy
      else
        transitionTo s2 .suspect
    else if s1.currentStatus = .suspect then
      let s2 := { s1 with suspectCount := s1.suspectCount + 1 }
      if s2.suspectCount ≥ s2.intervals.maxSuspectCount then
        transitionTo s2 .unhealthy
      else
        s2
    else
      s1

/-- The history push of `updateStatus`: append `{status, timestamp: now}`
then `if (this.history.length > 100) this.history.shift()`. -/
def pushHistory (s : PeriodicCheck) (now : Nat) : PeriodicCheck :=
  let h := s.history ++ [{ status := s.currentStatus, timestamp := now }]
  { s with history := if h.length > 100 then h.tail else h }

/-- `updateStatus(isHealthy)` in full: counters/transitions, history
append, and — only when the status changed — the listener notifications.
Returns the new state together with the notification calls made. -/
def updateStatus (s : PeriodicCheck) (isHealthy : Bool) (now : Nat) :
    PeriodicCheck × List (Nat × CheckEventData) :=
  let prevStatus := s.currentStatus
  let s2 := pushHistory (updateStatusCore s isHealthy) now
  if prevStatus ≠ s2.currentStatus then
    (s2, notifyListeners s2 now)
  else
    (s2, [])

/-- The interval-lookup status of `scheduleNext`: the `error` status falls
back to the `unhealthy` interval. -/
def intervalStatus (s : PeriodicCheck) : CheckStatus :=
  if s.currentStatus = .error then .unhealthy else s.currentStatus

/-- The delay `this.intervals[intervalStatus]` chosen by `scheduleNext`. -/
def intervalFor (s : PeriodicCheck) : Nat :=
  match intervalStatus s with
  | .healthy => s.intervals.healthy
  | .suspect => s.intervals.suspect
  | .unhealthy => s.intervals.unhealthy
  | .error => s.intervals.unhealthy

/-- `scheduleNext()`: clear any pending timer and arm a new one (at most
one pending timer at a time, so a boolean suffices for pendingness). -/
def scheduleNext (s : PeriodicCheck) : PeriodicCheck :=
  { s with timer := true }

/-- `handleError(error)`: failure update, reschedule, then call every
registered `error` listener with the raised error value.  Returns the new
state, the status notifications of the embedded update, and the error
listener calls as (listener id, error) pairs in order. -/
def handleError (s : PeriodicCheck) (err : Nat) (now : Nat) :
    PeriodicCheck × List (Nat × CheckEventData) × List (Nat × Nat) :=
  let r := updateStatus s false now
  let s2 := scheduleNext r.1
  (s2, r.2, (listenersFor s2 .error).map (fun id => (id, err)))

/-- `stop()`: clear the pending timer, if any. -/
def stop (s : PeriodicCheck) : PeriodicCheck :=
  { s with timer := false }

/-- `check(fn)`: install the probe, notify listeners of the current
status, schedule the first run.  Returns the new state and the
notification calls. -/
def check (s : PeriodicCheck) (now : Nat) :
    PeriodicCheck × List (Nat × CheckEventData) :=
  let s1 := { s with checkFn := true }
  (scheduleNext s1, notifyListeners s1 now)

/-- External events driving the monitor on the single-threaded event
loop.  `fire` is the pending timeout firing (`runCheck` starts; the probe
call begins, or the missing-probe error path runs synchronously);
`complete`/`fail` are the in-flight probe settling. -/
inductive Event where
  | checkEv (now : Nat)
  | onEv (st : CheckStatus) (id : Nat)
  | stopEv
  | fire (now : Nat)
  | complete (b : Bool) (now : Nat)
  | fail (err : Nat) (now : Nat)
deriving DecidableEq, Repr

/-- Whether an event is a `check()` call. -/
def Event.isCheck : Event → Bool
  | .checkEv _ => true
  | _ => false

/-- Whether an event is a timer firing, i.e. a probe execution starting. -/
def Event.isFire : Event → Bool
  | .fire _ => true
  | _ => false

/-- One step of the event loop; `none` means the event is not enabled in
this state (no pending timer to fire, no in-flight probe to settle). -/
def stepState (s : PeriodicCheck) : Event → Option PeriodicCheck
  | .checkEv now => some (check s now).1
  | .onEv st id => some (onEvent s st id)
  | .stopEv => some (stop s)
  | .fire now =>
      if s.timer then
        if s.checkFn then
          some { s with timer := false, inFlight := true }
        else
          some (handleError { s with timer := false } 0 now).1
      else
        none
  | .complete b now =>
      if s.inFlight then
        some (scheduleNext (updateStatus { s with inFlight := false } b now).1)
      else
        none
  | .fail err now =>
      if s.inFlight then
        some (handleError { s with inFlight := false } err now).1
      else
        none

/-- Run a list of events; `none` if some event is not enabled. -/
def run (s : PeriodicCheck) : List Event → Option PeriodicCheck
  | [] => some s
  | e :: es =>
      match stepState s e with
      | some s' => run s' es
      | none => none

/-- States reachable from construction via the public operations and
probe completions. -/
inductive Reachable : PeriodicCheck → Prop
  | init (c : IntervalConfig) : Reachable (init c)
  | step {s : PeriodicCheck} {e : Event} {s' : PeriodicCheck} :
      Reachable s → stepState s e = some s' → Reachable s'

/-- Iterated success updates: `n` consecutive probe successes. -/
def applySuccesses (s : PeriodicCheck) : Nat → PeriodicCheck
  | 0 => s
  | n + 1 => applySuccesses (updateStatusCore s true) n

/-- The spec's description of the streak, written from its words: the
count of consecutive most-recent entries of the full history sharing the
latest entry's status, 0 if the history is empty. -/
def specCurrentStreak (h : List HistoryEntry) : Nat :=
  match h.reverse with
  | [] => 0
  | last :: _ => ((h.reverse).takeWhile (fun e => e.status = last.status)).length

/-- Occurrences of a status in a slice of history. -/
def countOcc (st : CheckStatus) (l : List HistoryEntry) : Nat :=
  (l.filter (fun e => e.status = st)).length

section Helpers

theorem updateStatus_fst (s : PeriodicCheck) (b : Bool) (now : Nat) :
    (updateStatus s b now).1 = pushHistory (updateStatusCore s b) now := by
  simp only [updateStatus]
  split <;> rfl

theorem pushHistory_currentStatus (s : PeriodicCheck) (now : Nat) :
    (pushHistory s now).currentStatus = s.currentStatus := rfl

theorem pushHistory_suspectCount (s : PeriodicCheck) (now : Nat) :
    (pushHistory s now).suspectCount = s.suspectCount := rfl

theorem pushHistory_healthyCount (s : PeriodicCheck) (now : Nat) :
    (pushHistory s now).healthyCount = s.healthyCount := rfl

theorem updateStatusCore_true_healthyCount (s : PeriodicCheck) :
    (updateStatusCore s true).healthyCount = s.healthyCount + 1 := by
  simp [updateStatusCore, transitionTo, apply_ite PeriodicCheck.healthyCount]

theorem updateStatusCore_true_suspectCount (s : PeriodicCheck) :
    (updateStatusCore s true).suspectCount = 0 := by
  simp [updateStatusCore, transitionTo, apply_ite PeriodicCheck.suspectCount]

theorem updateStatusCore_false_healthyCount (s : PeriodicCheck) :
    (updateStatusCore s false).healthyCount = 0 := by
  simp [updateStatusCore, transitionTo, apply_ite PeriodicCheck.healthyCount]

theorem updateStatusCore_intervals (s : PeriodicCheck) (b : Bool) :
    (updateStatusCore s b).intervals = s.intervals := by
  cases b <;>
    simp [updateStatusCore, transitionTo, apply_ite PeriodicCheck.intervals]

theorem updateStatusCore_true_currentStatus (s : PeriodicCheck) :
    (updateStatusCore s true).currentStatus =
      (if s.healthyCount + 1 ≥ s.intervals.minHealthyCount then .healthy
       else s.currentStatus) := by
  simp [updateStatusCore, transitionTo, apply_ite PeriodicCheck.currentStatus]

theorem updateStatusCore_false_currentStatus (s : PeriodicCheck) :
    (updateStatusCore s false).currentStatus =
      (match s.currentStatus with
        | .healthy =>
            if s.suspectCount + 1 ≥ s.intervals.maxSuspectCount then .unhealthy else .suspect
        | .suspect =>
            if s.suspectCount + 1 ≥ s.intervals.maxSuspectCount then .unhealthy else .suspect
        | st => st) := by
  cases h : s.currentStatus <;>
    simp [updateStatusCore, transitionTo, h, apply_ite PeriodicCheck.currentStatus]

theorem updateStatusCore_false_suspectCount (s : PeriodicCheck) :
    (updateStatusCore s false).suspectCount =
      (match s.currentStatus with
        | .healthy => s.suspectCount + 1
        | .suspect => s.suspectCount + 1
        | _ => s.suspectCount) := by
  cases h : s.currentStatus <;>
    simp [updateStatusCore, transitionTo, h, apply_ite PeriodicCheck.suspectCount]

theorem updateStatusCore_history (s : PeriodicCheck) (b : Bool) :
    (updateStatusCore s b).history = s.history := by
  cases b <;>
    simp [updateStatusCore, transitionTo, apply_ite PeriodicCheck.history]

theorem updateStatusCore_listeners (s : PeriodicCheck) (b : Bool) :
    (updateStatusCore s b).listeners = s.listeners := by
  cases b <;>
    simp [updateStatusCore, transitionTo, apply_ite PeriodicCheck.listeners]

theorem pushHistory_listeners (s : PeriodicCheck) (now : Nat) :
    (pushHistory s now).listeners = s.listeners := rfl

theorem updateStatus_listeners (s : PeriodicCheck) (b : Bool) (now : Nat) :
    ((updateStatus s b now).1).listeners = s.listeners := by
  rw [updateStatus_fst, pushHistory_listeners, updateStatusCore_listeners]

theorem listenersFor_of_listeners_eq {s t : PeriodicCheck}
    (h : s.listeners = t.listeners) (st : CheckStatus) :
    listenersFor s st = listenersFor t st := by
  simp [listenersFor, h]

theorem applySuccesses_healthyCount (n : Nat) (s : PeriodicCheck) :
    (applySuccesses s n).healthyCount = s.healthyCount + n := by
  induction n generalizing s with
  | zero => rfl
  | succ m ih =>
      show (applySuccesses (updateStatusCore s true) m).healthyCount = _
      rw [ih, updateStatusCore_true_healthyCount]
      omega

theorem applySuccesses_intervals (n : Nat) (s : PeriodicCheck) :
    (applySuccesses s n).intervals = s.intervals := by
  induction n generalizing s with
  | zero => rfl
  | succ m ih =>
      show (applySuccesses (updateStatusCore s true) m).intervals = _
      rw [ih, updateStatusCore_intervals]

theorem applySuccesses_currentStatus (n : Nat) (s : PeriodicCheck) :
    (applySuccesses s (n + 1)).currentStatus =
      (if s.healthyCount + (n + 1) ≥ s.intervals.minHealthyCount then .healthy
       else s.currentStatus) := by
  induction n generalizing s with
  | zero =>
      show (updateStatusCore s true).currentStatus = _
      exact updateStatusCore_true_currentStatus s
  | succ m ih =>
      show (applySuccesses (updateStatusCore s true) (m + 1)).currentStatus = _
      rw [ih, updateStatusCore_true_healthyCount, updateStatusCore_intervals,
        updateStatusCore_true_currentStatus]
      by_cases h : s.healthyCount + 1 + (m + 1) ≥ s.intervals.minHealthyCount
      · have h2 : s.healthyCount + (m + 1 + 1) ≥ s.intervals.minHealthyCount := by omega
        simp [h, h2]
      · have h2 : ¬ s.healthyCount + (m + 1 + 1) ≥ s.intervals.minHealthyCount := by omega
        have h3 : ¬ s.healthyCount + 1 ≥ s.intervals.minHealthyCount := by omega
        simp [h, h2, h3]

end Helpers

/-- Claim C2: on a failure update, from `healthy` the suspect counter is
incremented and the status becomes `unhealthy` exactly when the counter
reaches `maxSuspectCount`, otherwise `suspect`; from `suspect` likewise
(staying `suspect` below the bound); from `unhealthy` (and from any other
status) neither the status nor the suspect counter changes, and in every
case `healthyCount` is reset to 0. -/
theorem failure_update_transitions (s : PeriodicCheck) :
    (updateStatusCore s false).currentStatus =
      (match s.currentStatus with
        | .healthy =>
            if s.suspectCount + 1 ≥ s.intervals.maxSuspectCount then .unhealthy else .suspect
        | .suspect =>
            if s.suspectCount + 1 ≥ s.intervals.maxSuspectCount then .unhealthy else .suspect
        | st => st)
    ∧ (updateStatusCore s false).suspectCount =
      (match s.currentStatus with
        | .healthy => s.suspectCount + 1
        | .suspect => s.suspectCount + 1
        | _ => s.suspectCount)
    ∧ (updateStatusCore s false).healthyCount = 0 :=
  ⟨updateStatusCore_false_currentStatus s, updateStatusCore_false_suspectCount s,
    updateStatusCore_false_healthyCount s⟩

/-- Claim C6: every success update resets `suspectCount` to 0 and every
failure update — including the one applied by the probe-error path —
resets `healthyCount` to 0. -/
theorem counters_reset_invariant (s : PeriodicCheck) (err now : Nat) :
    ((updateStatus s true now).1).suspectCount = 0
    ∧ ((updateStatus s false now).1).healthyCount = 0
    ∧ ((handleError s err now).1).healthyCount = 0 := by
  have h1 : ((updateStatus s true now).1).suspectCount = 0 := by
    rw [updateStatus_fst, pushHistory_suspectCount, updateStatusCore_true_suspectCount]
  have h2 : ((updateStatus s false now).1).healthyCount = 0 := by
    rw [updateStatus_fst, pushHistory_healthyCount, updateStatusCore_false_healthyCount]
  exact ⟨h1, h2, h2⟩

/-- Claim C3: a success update increments `healthyCount` and resets
`suspectCount` to 0; starting from `suspect` or `unhealthy` with the
healthy counter at zero, `minHealthyCount` or more consecutive successes
drive the status to `healthy`, and fewer leave it unchanged. -/
theorem success_recovery (s : PeriodicCheck) (n : Nat)
    (hmin : 1 ≤ s.intervals.minHealthyCount)
    (hhc : s.healthyCount = 0)
    (hst : s.currentStatus = .suspect ∨ s.currentStatus = .unhealthy) :
    (updateStatusCore s true).healthyCount = s.healthyCount + 1
    ∧ (updateStatusCore s true).suspectCount = 0
    ∧ (s.intervals.minHealthyCount ≤ n → (applySuccesses s n).currentStatus = .healthy)
    ∧ (n < s.intervals.minHealthyCount →
        (applySuccesses s n).currentStatus = s.currentStatus) := by
  refine ⟨updateStatusCore_true_healthyCount s, updateStatusCore_true_suspectCount s, ?_, ?_⟩
  · intro hn
    obtain ⟨m, rfl⟩ : ∃ m, n = m + 1 := ⟨n - 1, by omega⟩
    rw [applySuccesses_currentStatus, hhc]
    simp only [Nat.zero_add]
    rw [if_pos (by omega)]
  · intro hn
    cases n with
    | zero => rfl
    | succ m =>
        rw [applySuccesses_currentStatus, hhc]
        simp only [Nat.zero_add]
        rw [if_neg (by omega)]

/-- Witness for C3 at a concrete state: from `suspect` with
`minHealthyCount = 2`, two successes reach `healthy`. -/
theorem success_recovery_witness :
    let s : PeriodicCheck :=
      { intervals :=
          { healthy := 1000, suspect := 500, unhealthy := 2000,
            maxSuspectCount := 3, minHealthyCount := 2 }
        checkFn := true
        currentStatus := .suspect
        timer := true
        inFlight := false
        suspectCount := 1
        healthyCount := 0
        listeners := []
        history := [] }
    (updateStatusCore s true).healthyCount = s.healthyCount + 1
    ∧ (updateStatusCore s true).suspectCount = 0
    ∧ (s.intervals.minHealthyCount ≤ 2 → (applySuccesses s 2).currentStatus = .healthy)
    ∧ (2 < s.intervals.minHealthyCount →
        (applySuccesses s 2).currentStatus = s.currentStatus) :=
  success_recovery _ 2 (by decide) (by decide) (Or.inl rfl)

/-- A sample configuration used by concrete witnesses. -/
def cfgA : IntervalConfig :=
  { healthy := 1000, suspect := 500, unhealthy := 2000,
    maxSuspectCount := none, minHealthyCount := none }

/-- Claim C7: every completed update appends exactly one history entry
carrying the post-update status; the log stays within 100 entries, growing
by one below the cap and evicting the oldest entry at the cap. -/
theorem history_entry_per_update (s : PeriodicCheck) (b : Bool) (now : Nat)
    (h : s.history.length ≤ 100) :
    ((updateStatus s b now).1).history.length ≤ 100
    ∧ ((updateStatus s b now).1).history.getLast? =
        some { status := (updateStatusCore s b).currentStatus, timestamp := now }
    ∧ (s.history.length < 100 →
        ((updateStatus s b now).1).history =
          s.history ++ [{ status := (updateStatusCore s b).currentStatus, timestamp := now }])
    ∧ (s.history.length = 100 →
        ((updateStatus s b now).1).history =
          s.history.tail ++
            [{ status := (updateStatusCore s b).currentStatus, timestamp := now }]) := by
  rw [updateStatus_fst]
  simp only [pushHistory, updateStatusCore_history]
  split
  · rename_i hgt
    have hlen : s.history.length = 100 := by
      rw [List.length_append, List.length_cons, List.length_nil] at hgt
      omega
    obtain ⟨x, xs, hx⟩ : ∃ x xs, s.history = x :: xs := by
      cases hh : s.history with
      | nil => rw [hh] at hlen; simp at hlen
      | cons x xs => exact ⟨x, xs, rfl⟩
    refine ⟨?_, ?_, fun hlt => by omega, fun _ => ?_⟩
    · simp only [List.length_tail, List.length_append, List.length_cons, List.length_nil]
      omega
    · rw [hx, List.cons_append, List.tail_cons]
      exact List.getLast?_concat _
    · simp only [hx, List.cons_append, List.tail_cons]
  · rename_i hle
    have hlen : s.history.length + 1 ≤ 100 := by
      rw [List.length_append, List.length_cons, List.length_nil] at hle
      omega
    refine ⟨?_, List.getLast?_concat _, fun _ => rfl, fun heq => by omega⟩
    rw [List.length_append, List.length_cons, List.length_nil]
    omega

/-- Witness for C7: one failure update on a freshly constructed monitor. -/
theorem history_entry_per_update_witness :
    ((updateStatus (init cfgA) false 5).1).history.length ≤ 100
    ∧ ((updateStatus (init cfgA) false 5).1).history.getLast? =
        some { status := (updateStatusCore (init cfgA) false).currentStatus, timestamp := 5 }
    ∧ ((init cfgA).history.length < 100 →
        ((updateStatus (init cfgA) false 5).1).history =
          (init cfgA).history ++
            [{ status := (updateStatusCore (init cfgA) false).currentStatus, timestamp := 5 }])
    ∧ ((init cfgA).history.length = 100 →
        ((updateStatus (init cfgA) false 5).1).history =
          (init cfgA).history.tail ++
            [{ status := (updateStatusCore (init cfgA) false).currentStatus,
               timestamp := 5 }]) :=
  history_entry_per_update (init cfgA) false 5 (by decide)

/-- Claim C5: the notifications emitted by an update go to the listeners
registered under the new status, each receiving the fresh post-update
snapshot, exactly when the status changed; none are emitted otherwise. -/
theorem notifications_iff_status_changed (s : PeriodicCheck) (b : Bool) (now : Nat) :
    (updateStatus s b now).2 =
      (if ((updateStatus s b now).1).currentStatus ≠ s.currentStatus then
        (listenersFor s ((updateStatus s b now).1).currentStatus).map
          (fun id => (id, createEventData ((updateStatus s b now).1) now))
      else []) := by
  have hl : (pushHistory (updateStatusCore s b) now).listeners = s.listeners := by
    rw [pushHistory_listeners, updateStatusCore_listeners]
  rw [updateStatus_fst]
  simp only [updateStatus]
  by_cases hc : s.currentStatus = (pushHistory (updateStatusCore s b) now).currentStatus
  · simp [hc]
  · simp [hc, Ne.symm hc, notifyListeners, listenersFor, hl]

/-- Claim C4: on a probe error the monitor applies the failure update
(with its usual status notifications), reschedules, and then calls each
registered `error` listener exactly once, in registration order, with the
original raised error value. -/
theorem error_path (s : PeriodicCheck) (err now : Nat) :
    (handleError s err now).1 = scheduleNext ((updateStatus s false now).1)
    ∧ (handleError s err now).2.1 = (updateStatus s false now).2
    ∧ (handleError s err now).2.2 =
        (listenersFor s .error).map (fun id => (id, err)) := by
  refine ⟨rfl, rfl, ?_⟩
  have hl : (scheduleNext ((updateStatus s false now).1)).listeners = s.listeners := by
    simp [scheduleNext, updateStatus_listeners]
  simp [handleError, listenersFor, hl]

/-- The backwards streak scan agrees with a forward `takeWhile` on the
reversed history. -/
theorem countStreak_eq_takeWhile (st : CheckStatus) (l : List HistoryEntry) :
    countStreak st l = (l.takeWhile (fun e => e.status = st)).length := by
  induction l with
  | nil => rfl
  | cons e rest ih =>
      by_cases h : e.status = st
      · simp [countStreak, List.takeWhile_cons, h, ih, Nat.add_comm]
      · simp [countStreak, List.takeWhile_cons, h]

/-- `getCurrentStreak` computes the spec's streak over the full history. -/
theorem getCurrentStreak_eq_spec (s : PeriodicCheck) :
    getCurrentStreak s = specCurrentStreak s.history := by
  unfold getCurrentStreak specCurrentStreak
  cases hrev : s.history.reverse with
  | nil => rfl
  | cons last rest =>
      simp [List.takeWhile_cons, countStreak_eq_takeWhile, Nat.add_comm]

/-- Claim C1 (amended): `getMetrics().currentStreak` is the streak over
the full history — the count of consecutive most-recent entries sharing
the latest entry's status — whenever the 60-minute window is nonempty;
when the window is empty (in particular when the history is empty) it is
the literal 1 of the empty-window branch. -/
theorem currentStreak_characterization (s : PeriodicCheck) (now : Nat) :
    getCurrentStreak s = specCurrentStreak s.history
    ∧ (getMetrics s now).currentStreak =
        (if (getRecentHistory s now).length = 0 then 1
         else specCurrentStreak s.history) := by
  refine ⟨getCurrentStreak_eq_spec s, ?_⟩
  unfold getMetrics
  by_cases h : (getRecentHistory s now).length = 0
  · simp [h]
  · simp [h, getCurrentStreak_eq_spec]

/-- A freshly constructed monitor: empty history. -/
def cexEmpty : PeriodicCheck := init cfgA

/-- A monitor whose whole history is older than the 60-minute window. -/
def cexStale : PeriodicCheck :=
  { init cfgA with
      history :=
        [{ status := .healthy, timestamp := 0 }, { status := .healthy, timestamp := 0 }] }

/-- Counterexample to claim C1 as stated: on an empty history
`getMetrics().currentStreak` is 1, not 0; and with a nonempty history
lying wholly outside the window it is 1 while the full-history streak
is 2. -/
theorem currentStreak_claim_counterexample :
    (getMetrics cexEmpty 0).currentStreak = 1
    ∧ specCurrentStreak cexEmpty.history = 0
    ∧ (getMetrics cexStale 7200000).currentStreak = 1
    ∧ specCurrentStreak cexStale.history = 2 := by
  refine ⟨rfl, rfl, ?_, rfl⟩
  rfl

theorem bump_get_same (c : StatusCounts) (st : CheckStatus) :
    (c.bump st).get st = some ((c.get st).getD 0 + 1) := by
  cases st <;> rfl

theorem bump_get_ne (c : StatusCounts) (st st' : CheckStatus) (h : st' ≠ st) :
    (c.bump st').get st = c.get st := by
  cases st <;> cases st' <;> simp_all [StatusCounts.bump, StatusCounts.get]

theorem foldl_bump_get (l : List HistoryEntry) (acc : StatusCounts) (st : CheckStatus) :
    (l.foldl (fun a e => a.bump e.status) acc).get st =
      (if countOcc st l = 0 then acc.get st
       else some ((acc.get st).getD 0 + countOcc st l)) := by
  induction l generalizing acc with
  | nil => simp [countOcc]
  | cons e rest ih =>
      rw [List.foldl_cons, ih]
      by_cases h : e.status = st
      · subst h
        have hocc : countOcc e.status (e :: rest) = countOcc e.status rest + 1 := by
          simp [countOcc, List.filter_cons]
        rw [hocc, bump_get_same]
        by_cases h0 : countOcc e.status rest = 0
        · simp [h0]
        · simp only [h0, if_false, Nat.add_eq_zero, one_ne_zero, and_false,
            Option.getD_some, Option.some.injEq]
          omega
      · have hocc : countOcc st (e :: rest) = countOcc st rest := by
          simp [countOcc, List.filter_cons, h]
        rw [hocc, bump_get_ne acc st e.status h]

theorem countStatuses_get (l : List HistoryEntry) (st : CheckStatus) :
    (countStatuses l).get st =
      (if countOcc st l = 0 then none else some (countOcc st l)) := by
  rw [countStatuses, foldl_bump_get]
  cases st <;> simp [StatusCounts.empty, StatusCounts.get]

/-- Claim C10: on a nonempty window, `statusCounts` has a key for a
status exactly when it occurs in the window (mapped to its occurrence
count, never to an explicit 0); on an empty window it is the literal
object holding all four statuses, healthy at 1 and the rest at 0. -/
theorem statusCounts_presence (s : PeriodicCheck) (now : Nat) (st : CheckStatus) :
    ((getMetrics s now).statusCounts).get st =
      (if (getRecentHistory s now).length = 0 then
        (if st = .healthy then some 1 else some 0)
      else if countOcc st (getRecentHistory s now) = 0 then none
      else some (countOcc st (getRecentHistory s now))) := by
  unfold getMetrics
  by_cases h : (getRecentHistory s now).length = 0
  · cases st <;> simp [h, StatusCounts.get]
  · simp [h, countStatuses_get]

theorem updateStatusCore_ne_error (s : PeriodicCheck) (b : Bool)
    (h : s.currentStatus ≠ .error) :
    (updateStatusCore s b).currentStatus ≠ .error := by
  cases b
  · rw [updateStatusCore_false_currentStatus]
    cases hs : s.currentStatus with
    | healthy =>
        by_cases hmax : s.suspectCount + 1 ≥ s.intervals.maxSuspectCount <;> simp [hmax]
    | suspect =>
        by_cases hmax : s.suspectCount + 1 ≥ s.intervals.maxSuspectCount <;> simp [hmax]
    | unhealthy => simp
    | error => exact absurd hs h
  · rw [updateStatusCore_true_currentStatus]
    split
    · simp
    · exact h

theorem afterUpdate_currentStatus (s : PeriodicCheck) (b : Bool) (now : Nat) :
    (scheduleNext ((updateStatus s b now).1)).currentStatus =
      (updateStatusCore s b).currentStatus := by
  have h0 : (scheduleNext ((updateStatus s b now).1)).currentStatus =
      ((updateStatus s b now).1).currentStatus := rfl
  rw [h0, updateStatus_fst, pushHistory_currentStatus]

theorem handleError_currentStatus (s : PeriodicCheck) (err now : Nat) :
    ((handleError s err now).1).currentStatus =
      (updateStatusCore s false).currentStatus := by
  have h0 : (handleError s err now).1 =
      scheduleNext ((updateStatus s false now).1) := rfl
  rw [h0, afterUpdate_currentStatus]

theorem stepState_preserves_ne_error {s s' : PeriodicCheck} {e : Event}
    (hstep : stepState s e = some s') (h : s.currentStatus ≠ .error) :
    s'.currentStatus ≠ .error := by
  cases e with
  | checkEv now =>
      obtain rfl : (check s now).1 = s' := by simpa [stepState] using hstep
      exact h
  | onEv st id =>
      obtain rfl : onEvent s st id = s' := by simpa [stepState] using hstep
      exact h
  | stopEv =>
      obtain rfl : stop s = s' := by simpa [stepState] using hstep
      exact h
  | fire now =>
      simp only [stepState] at hstep
      split at hstep
      · split at hstep
        · obtain rfl := Option.some.inj hstep
          exact h
        · obtain rfl := Option.some.inj hstep
          rw [handleError_currentStatus]
          exact updateStatusCore_ne_error _ false h
      · cases hstep
  | complete b now =>
      simp only [stepState] at hstep
      split at hstep
      · obtain rfl := Option.some.inj hstep
        rw [afterUpdate_currentStatus]
        exact updateStatusCore_ne_error _ b h
      · cases hstep
  | fail err now =>
      simp only [stepState] at hstep
      split at hstep
      · obtain rfl := Option.some.inj hstep
        rw [handleError_currentStatus]
        exact updateStatusCore_ne_error _ false h
      · cases hstep

/-- Claim C9: in every reachable state the current status is one of
healthy/suspect/unhealthy — never `error` — so the `error` fallback of the
scheduling rule's interval lookup is never taken. -/
theorem reachable_status_not_error (s : PeriodicCheck) (h : Reachable s) :
    s.currentStatus ≠ .error ∧ intervalStatus s = s.currentStatus := by
  have main : s.currentStatus ≠ .error := by
    induction h with
    | init c => simp [init]
    | step hr hs ih => exact stepState_preserves_ne_error hs ih
  exact ⟨main, by simp [intervalStatus, main]⟩

/-- Witness for C9 at the initial state of a concrete configuration. -/
theorem reachable_status_not_error_witness :
    (init cfgA).currentStatus ≠ .error
    ∧ intervalStatus (init cfgA) = (init cfgA).currentStatus :=
  reachable_status_not_error (init cfgA) (Reachable.init cfgA)

theorem step_quiet {s s' : PeriodicCheck} {e : Event}
    (hq : s.timer = false ∧ s.inFlight = false)
    (hnc : e.isCheck = false)
    (hstep : stepState s e = some s') :
    (s'.timer = false ∧ s'.inFlight = false) ∧ e.isFire = false := by
  cases e with
  | checkEv now => simp [Event.isCheck] at hnc
  | onEv st id =>
      obtain rfl : onEvent s st id = s' := by simpa [stepState] using hstep
      exact ⟨hq, rfl⟩
  | stopEv =>
      obtain rfl : stop s = s' := by simpa [stepState] using hstep
      exact ⟨⟨rfl, hq.2⟩, rfl⟩
  | fire now => simp [stepState, hq.1] at hstep
  | complete b now => simp [stepState, hq.2] at hstep
  | fail err now => simp [stepState, hq.2] at hstep

theorem run_quiet (es : List Event) (s s' : PeriodicCheck)
    (hq : s.timer = false ∧ s.inFlight = false)
    (hnc : ∀ e ∈ es, e.isCheck = false)
    (hrun : run s es = some s') :
    ∀ e ∈ es, e.isFire = false := by
  induction es generalizing s with
  | nil => intro f hf; cases hf
  | cons e rest ih =>
      intro f hf
      cases hstep : stepState s e with
      | none =>
          simp only [run, hstep] at hrun
          exact Option.noConfusion hrun
      | some s1 =>
          simp only [run, hstep] at hrun
          have h1 := step_quiet hq (hnc e (List.mem_cons_self e rest)) hstep
          rcases List.mem_cons.mp hf with rfl | hf'
          · exact h1.2
          · exact ih s1 h1.1 (fun g hg => hnc g (List.mem_cons_of_mem e hg)) hrun f hf'

/-- Claim C8 (amended): `stop()` clears the pending timer, is idempotent
(a no-op when no timer is pending), and — provided no probe is in flight
at the moment of the call — no probe execution occurs along any
subsequent event sequence that contains no `check()` call. -/
theorem stop_properties (s : PeriodicCheck) (es : List Event) (s' : PeriodicCheck)
    (hin : s.inFlight = false)
    (hnc : ∀ e ∈ es, e.isCheck = false)
    (hrun : run (stop s) es = some s') :
    (stop s).timer = false
    ∧ stop (stop s) = stop s
    ∧ (s.timer = false → stop s = s)
    ∧ ∀ e ∈ es, e.isFire = false := by
  refine ⟨rfl, rfl, fun ht => ?_, run_quiet es (stop s) s' ⟨rfl, hin⟩ hnc hrun⟩
  cases s
  simp_all [stop]

/-- Witness for C8's amended statement at a concrete quiescent state. -/
theorem stop_properties_witness :
    (stop (init cfgA)).timer = false
    ∧ stop (stop (init cfgA)) = stop (init cfgA)
    ∧ ((init cfgA).timer = false → stop (init cfgA) = init cfgA)
    ∧ ∀ e ∈ ([Event.stopEv, Event.onEv .healthy 5] : List Event), e.isFire = false :=
  stop_properties (init cfgA) [Event.stopEv, Event.onEv .healthy 5]
    (onEvent (stop (stop (init cfgA))) .healthy 5) rfl (by decide) rfl

/-- Counterexample to claim C8 as stated: a valid event-loop execution in
which `stop()` is called while a probe is in flight; the probe's
completion reschedules, and a further probe execution (the final timer
firing) occurs with no intervening `check()` call. -/
theorem stop_claim_counterexample :
    (run (init cfgA)
      [Event.checkEv 0, Event.fire 1, Event.stopEv, Event.complete true 2,
        Event.fire 3]).isSome = true
    ∧ (Event.fire 3).isFire = true
    ∧ (Event.complete true 2).isCheck = false
    ∧ (Event.fire 3).isCheck = false := by
  exact ⟨rfl, rfl, rfl, rfl⟩

end PeriodicCheckModel
